import Mathlib

/-!
Verification of the daeshboard data-synchronization core.

This file gives a shallow embedding, in Lean 4, of the state and the state
transitions of the daeshboard program (latest revision: the `main.go` that
uses `gui/internal/github`, i.e. the version with `TabIDs`, `addTab`,
per-tab `GetItems`, plus `internal/github/client.go`), and proves or
refutes the specification's claims about it.

Modelling conventions:
- `time.Time` values are modelled as `Nat`; `0` is the zero time
  (`IsZero`), and `time.Now()` is a strictly larger fresh value.
- Go maps with zero-value reads are modelled as total functions
  `String → _` with the zero value as default; a map write is
  `Function.update`.
- Go `int` values that can go negative (`SelectedItem`, slice indices)
  are modelled as `Int`; `len` is cast from `Nat`.
- A Go panic (slice index out of range) is modelled as `Option.none`.
- External side effects (launching an application, opening a URL) are
  modelled as an explicit list of `Effect` values returned by a
  transition.
-/

namespace Daeshboard

/-- `Item` from `main.go`: a displayable unit with an optional URL and an
optional application to launch. Empty string models the absent value. -/
structure Item where
  value : String
  url : String
  application : String
deriving DecidableEq, Repr

/-- `TabDisplay` from `main.go`: per-tab navigation state. `selectedItem`
is a Go `int` (it can go negative), `lastViewedAt` a timestamp. -/
structure TabDisplay where
  title : String
  selectedItem : Int
  lastViewedAt : Nat
deriving DecidableEq, Repr

/-- `TabData` from `main.go`: the per-tab snapshot. `hasGetter` models
whether the `GetItems` closure is non-nil (it is set by `addTab` and
dropped by the snapshot replacement in `updateData`, which writes a
`TabData` literal without a `GetItems` field). -/
structure TabData where
  items : List Item
  modifiedAt : Nat
  hasGetter : Bool
deriving DecidableEq, Repr

/-- The zero value of `TabDisplay` (a missing Go map key). -/
def defaultTabDisplay : TabDisplay := { title := "", selectedItem := 0, lastViewedAt := 0 }

/-- The zero value of `TabData` (a missing Go map key). -/
def defaultTabData : TabData := { items := [], modifiedAt := 0, hasGetter := false }

/-- `State` from `main.go` (latest revision): tab identifiers in display
order, the selected tab identifier, per-tab display and data maps, the
close flag and the per-tab notification watermarks. -/
structure State where
  tabIDs : List String
  selectedTab : String
  tabDisplays : String → TabDisplay
  tabData : String → TabData
  shouldClose : Bool
  notificationSentAt : String → Nat

/-- `newState` from `main.go`: empty tab sequence, empty maps. -/
def newState : State :=
  { tabIDs := []
    selectedTab := ""
    tabDisplays := fun _ => defaultTabDisplay
    tabData := fun _ => defaultTabData
    shouldClose := false
    notificationSentAt := fun _ => 0 }

/-- `State.addTab` from `main.go`: append the identifier, install the
getter-bearing empty snapshot and the titled display, and select the tab
if none is selected yet. -/
def State.addTab (s : State) (title : String) : State :=
  { s with
    tabIDs := s.tabIDs ++ [title]
    tabData := Function.update s.tabData title { defaultTabData with hasGetter := true }
    tabDisplays := Function.update s.tabDisplays title { defaultTabDisplay with title := title }
    selectedTab := if s.selectedTab = "" then title else s.selectedTab }

/-- The state `main` builds at startup: the four tabs in order. -/
def startupState : State :=
  ((((newState.addTab "PRs").addTab "Issues").addTab "Alerts").addTab "Workflows")

/-- The per-tab body of `updateData` (`main.go`, latest revision): if the
stored `ModifiedAt` is zero or the freshly fetched list differs by value
from the stored one (`slices.Equal`), replace the snapshot with the new
items and the current time (the written `TabData` literal has no
`GetItems` field, so the getter is dropped); otherwise leave the stored
snapshot untouched. -/
def updateTabData (d : TabData) (items : List Item) (now : Nat) : TabData :=
  if d.modifiedAt = 0 ∨ items ≠ d.items then
    { items := items, modifiedAt := now, hasGetter := false }
  else d

/-- C1: for every tab and every fetch step of the Poller (hence, by
induction on the run, every sequence of fetch results), assuming the
clock is fresh (`d.modifiedAt < now`, as `time.Now()` is strictly after
any stored stamp), the snapshot's `modifiedAt` is updated if and only if
the fetched list differs by value from the stored one or the stored
`modifiedAt` is zero (first successful fetch); when it updates, the
snapshot is replaced wholesale with the new list and the current time,
and otherwise the stored snapshot is kept unchanged. -/
theorem C1_modifiedAt_update_iff (d : TabData) (items : List Item) (now : Nat)
    (h : d.modifiedAt < now) :
    ((updateTabData d items now).modifiedAt ≠ d.modifiedAt
      ↔ (d.modifiedAt = 0 ∨ items ≠ d.items))
    ∧ ((d.modifiedAt = 0 ∨ items ≠ d.items) →
        updateTabData d items now = { items := items, modifiedAt := now, hasGetter := false })
    ∧ (¬(d.modifiedAt = 0 ∨ items ≠ d.items) → updateTabData d items now = d) := by
  unfold updateTabData
  by_cases hc : d.modifiedAt = 0 ∨ items ≠ d.items
  · rw [if_pos hc]
    refine ⟨⟨fun _ => hc, fun _ => ?_⟩, fun _ => rfl, fun hn => absurd hc hn⟩
    exact Nat.ne_of_gt h
  · rw [if_neg hc]
    exact ⟨⟨fun hne => absurd rfl hne, fun hc' => absurd hc' hc⟩,
      fun hc' => absurd hc' hc, fun _ => rfl⟩

/-- Witness for C1 at a concrete input: the first successful fetch of an
empty list on a never-fetched tab still commits a snapshot and stamps
`modifiedAt`. -/
theorem C1_witness :
    ((updateTabData { items := [], modifiedAt := 0, hasGetter := true } [] 1).modifiedAt ≠ 0
      ↔ ((0 : Nat) = 0 ∨ ([] : List Item) ≠ []))
    ∧ (((0 : Nat) = 0 ∨ ([] : List Item) ≠ []) →
        updateTabData { items := [], modifiedAt := 0, hasGetter := true } [] 1
          = { items := [], modifiedAt := 1, hasGetter := false })
    ∧ (¬((0 : Nat) = 0 ∨ ([] : List Item) ≠ []) →
        updateTabData { items := [], modifiedAt := 0, hasGetter := true } [] 1
          = { items := [], modifiedAt := 0, hasGetter := true }) :=
  C1_modifiedAt_update_iff { items := [], modifiedAt := 0, hasGetter := true } [] 1 (by decide)

/-- The loop of `updateData` over the tab identifiers (`main.go`, latest
revision): for each tab in order, call its getter once and apply the
per-tab snapshot update. Besides the updated data map it returns the
trace of tab identifiers whose getters were invoked, in invocation
order. Writing back an unchanged `updateTabData` result is the
extensional no-op of the skipped assignment in the source. -/
def updateTabs (fetch : String → List Item) (now : Nat) :
    List String → (String → TabData) → (String → TabData) × List String
  | [], td => (td, [])
  | t :: rest, td =>
      let td1 := Function.update td t (updateTabData (td t) (fetch t) now)
      let p := updateTabs fetch now rest td1
      (p.1, t :: p.2)

/-- `updateData` from `main.go` (latest revision), as a function of the
fetch results: one pass over `state.TabIDs` applying the per-tab update,
then a single `time.Sleep(10 * time.Second)`, and the function returns.
There is no enclosing loop in this revision. The second component is the
trace of getter invocations. -/
def updateData (s : State) (fetch : String → List Item) (now : Nat) : State × List String :=
  let p := updateTabs fetch now s.tabIDs s.tabData
  ({ s with tabData := p.1 }, p.2)

/-- Helper: one pass of `updateTabs` invokes each tab's getter exactly
once, in identifier order. -/
theorem updateTabs_trace (fetch : String → List Item) (now : Nat)
    (tabs : List String) (td : String → TabData) :
    (updateTabs fetch now tabs td).2 = tabs := by
  induction tabs generalizing td with
  | nil => rfl
  | cons t rest ih => simp [updateTabs, ih]

/-- C4: a call of `updateData` performs exactly one fetch per tab, in
identifier order, and then returns — `updateData` is a terminating
function of one pass (the `for` in this revision ranges over the tab
identifiers only; the 10-second sleep is executed once, at the end,
and nothing follows it). The claimed endless repetition of cycles does
not exist in the code. -/
theorem C4_single_pass (s : State) (fetch : String → List Item) (now : Nat) :
    (updateData s fetch now).2 = s.tabIDs := by
  unfold updateData
  exact updateTabs_trace fetch now s.tabIDs s.tabData

/-- The per-tab body of `notifyIfNeeded` (`main.go`, latest revision):
given the tab's watermark `w` (`NotificationSentAt`) and the snapshot's
`modifiedAt` `m`, return the new watermark and the number of
notifications sent. Watermark zero: adopt `m`, send nothing. Watermark
non-zero and before `m`: adopt `m`, send exactly one. Otherwise: do
nothing. -/
def notifyStep (w m : Nat) : Nat × Nat :=
  if w = 0 then (m, 0)
  else if w < m then (m, 1)
  else (w, 0)

/-- Iterated Notification Policy evaluations for one tab: `ms` is the
sequence of `modifiedAt` values the policy observes on successive render
frames. Returns the final watermark and the total number of
notifications sent. -/
def notifyRun (w : Nat) : List Nat → Nat × Nat
  | [] => (w, 0)
  | m :: ms =>
      let p := notifyStep w m
      let q := notifyRun p.1 ms
      (q.1, p.2 + q.2)

/-- Modelled from the spec's words (for comparison with the code): the
number of notifications the spec promises — one per strict increase
between successive observed `modifiedAt` values, except that an increase
away from a zero predecessor (the very first population) counts for
nothing. `prev` is the previously observed value, initially zero. -/
def specNotifCount (prev : Nat) : List Nat → Nat
  | [] => 0
  | m :: ms => (if prev ≠ 0 ∧ prev < m then 1 else 0) + specNotifCount m ms

/-- Helper: when the watermark equals the previously observed
`modifiedAt` and the observations never decrease, the policy sends
exactly the spec-counted notifications. -/
theorem notifyRun_eq_specNotifCount (ms : List Nat) (prev : Nat)
    (h : List.Chain (· ≤ ·) prev ms) :
    (notifyRun prev ms).2 = specNotifCount prev ms := by
  induction ms generalizing prev with
  | nil => rfl
  | cons m ms ih =>
      rcases h with _ | ⟨hpm, hchain⟩
      by_cases h0 : prev = 0
      · subst h0
        simp [notifyRun, notifyStep, specNotifCount, ih m hchain]
      · by_cases hlt : prev < m
        · simp [notifyRun, notifyStep, h0, hlt, specNotifCount, ih m hchain]
        · have hem : prev = m := Nat.le_antisymm hpm (Nat.le_of_not_lt hlt)
          subst hem
          simp [notifyRun, notifyStep, h0, hlt, specNotifCount, ih prev hchain]

/-- C2: for every tab, starting from the zero watermark, over any
sequence of observed `modifiedAt` values that never decreases (the
poller only ever stamps a later `time.Now()`), the Notification Policy
sends exactly one notification per strict increase between successive
observed `modifiedAt` values and none for the increase away from zero
(the first population): the policy's total equals the spec's count. The
per-evaluation case behaviour is `notifyStep` itself: zero watermark
adopts `modifiedAt` silently, a non-zero watermark strictly below
`modifiedAt` adopts it and sends exactly one, and otherwise nothing
happens. -/
theorem C2_notification_count (ms : List Nat) (h : List.Chain (· ≤ ·) 0 ms) :
    (notifyRun 0 ms).2 = specNotifCount 0 ms :=
  notifyRun_eq_specNotifCount ms 0 h

/-- Witness for C2 at a concrete run: observations `[0, 5, 5, 7, 9]`
(first population at time 5, changes at 7 and 9) produce exactly two
notifications, matching the spec count. -/
theorem C2_witness : (notifyRun 0 [0, 5, 5, 7, 9]).2 = specNotifCount 0 [0, 5, 5, 7, 9] :=
  C2_notification_count [0, 5, 5, 7, 9] (by simp [List.chain_cons])

/-- The key events the render loop distinguishes. Each arrow/wasd/hjkl
group is one constructor; `jump n` is the digit key `n`; `noKey` is
`rl.GetKeyPressed()` returning nothing. Digit keys other than 1–4 have
no `case` in the source switch and fall into `default` exactly like
`noKey`. -/
inductive Input where
  | left
  | right
  | up
  | down
  | activate
  | jump (n : Nat)
  | quit
  | noKey
deriving DecidableEq, Repr

/-- An external side effect requested by `openApplication`. -/
inductive Effect where
  | openApp (application : String)
  | openURL (url : String)
deriving DecidableEq, Repr

/-- `slices.Index`: index of the first occurrence, `-1` if absent. -/
def goIndex (l : List String) (x : String) : Int :=
  match l with
  | [] => -1
  | a :: rest =>
      if a = x then 0
      else
        let r := goIndex rest x
        if r = -1 then -1 else r + 1

/-- The `if gotInput` epilogue of `reactToInput`: stamp `LastViewedAt`
of whichever tab is selected after the switch has been applied. -/
def stampViewed (s : State) (now : Nat) : State :=
  { s with
    tabDisplays := Function.update s.tabDisplays s.selectedTab
      { s.tabDisplays s.selectedTab with lastViewedAt := now } }

/-- The read-modify-write of `SelectedItem` on the selected tab used by
the up/down cases of `reactToInput`. -/
def setCursor (s : State) (sel : Int) : State :=
  { s with
    tabDisplays := Function.update s.tabDisplays s.selectedTab
      { s.tabDisplays s.selectedTab with selectedItem := sel } }

/-- `openApplication` from `main.go` (latest revision): if the selected
tab's item list is empty, return doing nothing; otherwise index the list
at `SelectedItem` (a panic — index out of range — is `none`), and emit
the launch-application effect if the item has an application, else the
open-URL effect if it has a URL, else nothing. The state is taken by
value and never changed. -/
def openApplication (s : State) : Option (List Effect) :=
  if (s.tabData s.selectedTab).items.length = 0 then some []
  else if (s.tabDisplays s.selectedTab).selectedItem < 0 then none
  else
    match (s.tabData s.selectedTab).items[(s.tabDisplays s.selectedTab).selectedItem.toNat]? with
    | none => none
    | some item =>
        if item.application ≠ "" then some [Effect.openApp item.application]
        else if item.url ≠ "" then some [Effect.openURL item.url]
        else some []

/-- `reactToInput` from `main.go` (latest revision) as a function of the
pressed key and the current time. Returns the new state and the emitted
effects, or `none` for a panic. Each handled `case` of the source switch
sets `gotInput` and therefore ends in `stampViewed`; `default` (no key,
or a key without a `case`, such as digits above 4) leaves the state
untouched. `nItems` is read from the selected tab's snapshot before the
switch, as in the source. -/
def reactToInput (s : State) (key : Input) (now : Nat) : Option (State × List Effect) :=
  let nItems : Int := ((s.tabData s.selectedTab).items.length : Int)
  match key with
  | Input.left =>
      let tabIdx := goIndex s.tabIDs s.selectedTab
      let newTabIdx := max 0 (tabIdx - 1)
      if newTabIdx ≠ tabIdx then
        match s.tabIDs[newTabIdx.toNat]? with
        | some t => some (stampViewed { s with selectedTab := t } now, [])
        | none => none
      else some (stampViewed s now, [])
  | Input.right =>
      let tabIdx := goIndex s.tabIDs s.selectedTab
      let newTabIdx := min ((s.tabIDs.length : Int) - 1) (tabIdx + 1)
      if newTabIdx ≠ tabIdx then
        match s.tabIDs[newTabIdx.toNat]? with
        | some t => some (stampViewed { s with selectedTab := t } now, [])
        | none => none
      else some (stampViewed s now, [])
  | Input.up =>
      some (stampViewed
        (setCursor s (max 0 ((s.tabDisplays s.selectedTab).selectedItem - 1))) now, [])
  | Input.down =>
      some (stampViewed
        (setCursor s (min (nItems - 1) ((s.tabDisplays s.selectedTab).selectedItem + 1))) now, [])
  | Input.activate =>
      match openApplication s with
      | some effs => some (stampViewed s now, effs)
      | none => none
  | Input.jump n =>
      if 1 ≤ n ∧ n ≤ 4 then
        match s.tabIDs[n - 1]? with
        | some t => some (stampViewed { s with selectedTab := t } now, [])
        | none => none
      else some (s, [])
  | Input.quit => some (stampViewed { s with shouldClose := true } now, [])
  | Input.noKey => some (s, [])

/-- The inputs that match a `case` of the source switch, i.e. those for
which `gotInput` stays `true`: everything except `noKey` and digit keys
outside 1–4 (both fall into `default`). -/
def recognized : Input → Prop
  | Input.noKey => False
  | Input.jump n => 1 ≤ n ∧ n ≤ 4
  | _ => True

/-- C7: in any program state (the tab sequence is fixed at startup to
the four tabs and never mutated afterwards), a jump-to-tab-N digit key
with N beyond the tab count has no `case` in the switch, so the
transition returns the state completely unchanged — same `selectedTab`,
same `lastViewedAt` for every tab — and emits nothing. -/
theorem C7_jump_beyond_tab_count (s : State) (n now : Nat)
    (hlen : s.tabIDs.length = 4) (hn : s.tabIDs.length < n) :
    reactToInput s (Input.jump n) now = some (s, []) := by
  have h4 : ¬(1 ≤ n ∧ n ≤ 4) := by omega
  simp only [reactToInput, if_neg h4]

/-- Witness for C7: pressing digit 5 in the startup state (4 tabs)
changes nothing. -/
theorem C7_witness : reactToInput startupState (Input.jump 5) 7 = some (startupState, []) :=
  C7_jump_beyond_tab_count startupState 5 7 (by decide) (by decide)

/-- C6 (amended): pressing activate when the selected item exists but
has neither a URL nor an application emits no external effect, and the
only change to the state is the `gotInput` epilogue: `lastViewedAt` of
the selected tab is set to the current time (`stampViewed` rewrites
exactly that one field of that one tab). -/
theorem C6_activate_no_effect_stamps_viewed (s : State) (now : Nat) (item : Item)
    (hsel : 0 ≤ (s.tabDisplays s.selectedTab).selectedItem)
    (hget : (s.tabData s.selectedTab).items[(s.tabDisplays s.selectedTab).selectedItem.toNat]?
      = some item)
    (happ : item.application = "") (hurl : item.url = "") :
    reactToInput s Input.activate now = some (stampViewed s now, []) := by
  have hlt : (s.tabDisplays s.selectedTab).selectedItem.toNat
      < (s.tabData s.selectedTab).items.length :=
    (List.getElem?_eq_some.mp hget).1
  have hne : (s.tabData s.selectedTab).items.length ≠ 0 := by omega
  have hopen : openApplication s = some [] := by
    unfold openApplication
    rw [if_neg hne, if_neg (not_lt.mpr hsel), hget]
    simp [happ, hurl]
  simp only [reactToInput, hopen]

/-- The startup state with one item (no URL, no application) in the
"PRs" tab, as left by a first fetch. -/
def c6State : State :=
  { startupState with
    tabData := Function.update startupState.tabData "PRs"
      { items := [{ value := "slarwise/x: hi", url := "", application := "" }],
        modifiedAt := 1, hasGetter := false } }

/-- Counterexample to C6 as stated: activating the URL-less,
application-less selected item does emit no effect, but it does NOT
leave the state unchanged — `lastViewedAt` of the selected tab "PRs"
goes from 0 to the current time 5. -/
theorem C6_counterexample :
    (c6State.tabDisplays "PRs").lastViewedAt = 0 ∧ c6State.selectedTab = "PRs" ∧
    (reactToInput c6State Input.activate 5).map
        (fun p => (p.2, (p.1.tabDisplays "PRs").lastViewedAt)) = some ([], 5) := by
  decide

/-- Witness for C6 (amended) at the concrete state: the transition is
exactly the stamp of the selected tab with no effects. -/
theorem C6_witness :
    reactToInput c6State Input.activate 5 = some (stampViewed c6State 5, []) :=
  C6_activate_no_effect_stamps_viewed c6State 5
    { value := "slarwise/x: hi", url := "", application := "" }
    (by decide) (by decide) rfl rfl

/-- The startup state after a fetch put one item into "PRs" while the
"PRs" cursor is stuck at the stale index 1. -/
def c9State : State :=
  { startupState with
    tabData := Function.update startupState.tabData "PRs"
      { items := [{ value := "slarwise/x: hi", url := "", application := "" }],
        modifiedAt := 1, hasGetter := false },
    tabDisplays := Function.update startupState.tabDisplays "PRs"
      { title := "PRs", selectedItem := 1, lastViewedAt := 0 } }

/-- C9: `openApplication` guards only against an empty item list; in
every state whose selected tab has a non-empty list of length at most
`selectedItem` (reachable when a fetch shrinks the list under a stale
cursor) the index access is out of bounds — a panic, not a no-op — and
the activate transition panics with it. -/
theorem C9_activate_out_of_bounds (s : State) (now : Nat)
    (hpos : 0 < (s.tabData s.selectedTab).items.length)
    (hsel : ((s.tabData s.selectedTab).items.length : Int)
      ≤ (s.tabDisplays s.selectedTab).selectedItem) :
    openApplication s = none ∧ reactToInput s Input.activate now = none := by
  have hne : (s.tabData s.selectedTab).items.length ≠ 0 := by omega
  have hnneg : ¬((s.tabDisplays s.selectedTab).selectedItem < 0) := by omega
  have hlen : (s.tabData s.selectedTab).items.length
      ≤ (s.tabDisplays s.selectedTab).selectedItem.toNat := by omega
  have hopen : openApplication s = none := by
    unfold openApplication
    rw [if_neg hne, if_neg hnneg, List.getElem?_eq_none hlen]
  exact ⟨hopen, by simp only [reactToInput, hopen]⟩

/-- Witness for C9: one item, cursor at the stale index 1 — activate
panics. -/
theorem C9_witness : openApplication c9State = none ∧ reactToInput c9State Input.activate 3 = none :=
  C9_activate_out_of_bounds c9State 3 (by decide) (by decide)

/-- Helper: `stampViewed` sets `lastViewedAt` of the tab that is
selected in the state it is applied to. -/
theorem stampViewed_selected_lastViewedAt (s : State) (now : Nat) :
    ((stampViewed s now).tabDisplays (stampViewed s now).selectedTab).lastViewedAt = now := by
  show (Function.update s.tabDisplays s.selectedTab
      { s.tabDisplays s.selectedTab with lastViewedAt := now } s.selectedTab).lastViewedAt = now
  rw [Function.update_same]

/-- C8 (amended): for every input that matches a `case` of the switch
(tab moves, cursor moves, activate, jump-to-tab-1..4, quit — i.e.
`gotInput` is set), a successful transition stamps `lastViewedAt` of
whichever tab is selected AFTER the transition to the current time; in
particular a tab switch stamps the newly selected tab. Unhandled keys
(digits beyond the tab count) fall into the same `default` as
"no key pressed" and stamp nothing. -/
theorem C8_handled_input_stamps_new_tab (s : State) (key : Input) (now : Nat)
    (s' : State) (effs : List Effect) (hrec : recognized key)
    (h : reactToInput s key now = some (s', effs)) :
    (s'.tabDisplays s'.selectedTab).lastViewedAt = now := by
  cases key with
  | noKey => exact hrec.elim
  | jump n =>
      have hn : 1 ≤ n ∧ n ≤ 4 := hrec
      simp only [reactToInput, if_pos hn] at h
      split at h
      · simp only [Option.some.injEq, Prod.mk.injEq] at h
        rw [← h.1]
        exact stampViewed_selected_lastViewedAt _ _
      · exact Option.noConfusion h
  | left =>
      simp only [reactToInput] at h
      split at h
      · split at h
        · simp only [Option.some.injEq, Prod.mk.injEq] at h
          rw [← h.1]
          exact stampViewed_selected_lastViewedAt _ _
        · exact Option.noConfusion h
      · simp only [Option.some.injEq, Prod.mk.injEq] at h
        rw [← h.1]
        exact stampViewed_selected_lastViewedAt _ _
  | right =>
      simp only [reactToInput] at h
      split at h
      · split at h
        · simp only [Option.some.injEq, Prod.mk.injEq] at h
          rw [← h.1]
          exact stampViewed_selected_lastViewedAt _ _
        · exact Option.noConfusion h
      · simp only [Option.some.injEq, Prod.mk.injEq] at h
        rw [← h.1]
        exact stampViewed_selected_lastViewedAt _ _
  | up =>
      simp only [reactToInput, Option.some.injEq, Prod.mk.injEq] at h
      rw [← h.1]
      exact stampViewed_selected_lastViewedAt _ _
  | down =>
      simp only [reactToInput, Option.some.injEq, Prod.mk.injEq] at h
      rw [← h.1]
      exact stampViewed_selected_lastViewedAt _ _
  | activate =>
      simp only [reactToInput] at h
      split at h
      · simp only [Option.some.injEq, Prod.mk.injEq] at h
        rw [← h.1]
        exact stampViewed_selected_lastViewedAt _ _
      · exact Option.noConfusion h
  | quit =>
      simp only [reactToInput, Option.some.injEq, Prod.mk.injEq] at h
      rw [← h.1]
      exact stampViewed_selected_lastViewedAt _ _

/-- Counterexample to C8 as stated: the digit key 7 is an input event
other than "no key pressed", yet in the startup state it leaves
`lastViewedAt` of the selected tab at 0 instead of the current time 9 —
unhandled digits fall into `default` and `gotInput` stays false. -/
theorem C8_counterexample :
    Input.jump 7 ≠ Input.noKey ∧
    (reactToInput startupState (Input.jump 7) 9).map
        (fun p => (p.1.tabDisplays p.1.selectedTab).lastViewedAt) = some 0 ∧
    (0 : Nat) ≠ 9 := by decide

/-- The state after pressing right in the startup state at time 3. -/
def c8PostState : State :=
  ((reactToInput startupState Input.right 3).map Prod.fst).getD startupState

/-- Witness for C8 (amended): pressing right at time 3 switches to
"Issues" and stamps the newly selected tab with 3. -/
theorem C8_witness : (c8PostState.tabDisplays c8PostState.selectedTab).lastViewedAt = 3 :=
  C8_handled_input_stamps_new_tab startupState Input.right 3 c8PostState []
    trivial rfl

/-- The property C3 claims of a cursor value `sel` against a list of
length `n`: a valid index, or 0 when the list is empty. -/
def cursorInRange (sel : Int) (n : Nat) : Prop :=
  (0 ≤ sel ∧ sel < (n : Int)) ∨ ((n : Int) = 0 ∧ sel = 0)

instance (sel : Int) (n : Nat) : Decidable (cursorInRange sel n) := by
  unfold cursorInRange
  infer_instance

/-- C3's claimed per-tab invariant: the tab's `selectedItem` is a valid
index into that tab's current item list, or 0 when the list is empty. -/
def tabOK (s : State) (t : String) : Prop :=
  cursorInRange ((s.tabDisplays t).selectedItem) ((s.tabData t).items.length)

instance (s : State) (t : String) : Decidable (tabOK s t) := by
  unfold tabOK
  infer_instance

/-- C3's claimed invariant, for every tab. -/
def cursorOK (s : State) : Prop := ∀ t ∈ s.tabIDs, tabOK s t

instance (s : State) : Decidable (cursorOK s) := by
  unfold cursorOK
  exact List.decidableBAll _ _

/-- Helper: stamping `lastViewedAt` never moves any cursor. -/
theorem stampViewed_selectedItem (s : State) (now : Nat) (t : String) :
    ((stampViewed s now).tabDisplays t).selectedItem = (s.tabDisplays t).selectedItem := by
  unfold stampViewed
  by_cases ht : t = s.selectedTab
  · subst ht
    show (Function.update s.tabDisplays s.selectedTab
      { s.tabDisplays s.selectedTab with lastViewedAt := now } s.selectedTab).selectedItem = _
    rw [Function.update_same]
  · show (Function.update s.tabDisplays s.selectedTab
      { s.tabDisplays s.selectedTab with lastViewedAt := now } t).selectedItem = _
    rw [Function.update_noteq ht]

/-- Helper: `setCursor` rewrites the selected tab's cursor and no
other. -/
theorem setCursor_selectedItem (s : State) (v : Int) (t : String) :
    ((setCursor s v).tabDisplays t).selectedItem =
      if t = s.selectedTab then v else (s.tabDisplays t).selectedItem := by
  unfold setCursor
  by_cases ht : t = s.selectedTab
  · subst ht
    rw [if_pos rfl]
    show (Function.update s.tabDisplays s.selectedTab
      { s.tabDisplays s.selectedTab with selectedItem := v } s.selectedTab).selectedItem = _
    rw [Function.update_same]
  · rw [if_neg ht]
    show (Function.update s.tabDisplays s.selectedTab
      { s.tabDisplays s.selectedTab with selectedItem := v } t).selectedItem = _
    rw [Function.update_noteq ht]

/-- Helper: stamping preserves the cursor invariant. -/
theorem cursorOK_stampViewed (s : State) (now : Nat) (hinv : cursorOK s) :
    cursorOK (stampViewed s now) := by
  intro t ht
  unfold tabOK
  rw [stampViewed_selectedItem]
  exact hinv t ht

/-- Helper: a cursor write on the selected tab followed by the stamp
preserves the invariant provided the written value is in range for the
selected tab (when that tab is one of the tab identifiers). -/
theorem cursorOK_stamp_setCursor (s : State) (v : Int) (now : Nat) (hinv : cursorOK s)
    (hv : s.selectedTab ∈ s.tabIDs → cursorInRange v ((s.tabData s.selectedTab).items.length)) :
    cursorOK (stampViewed (setCursor s v) now) := by
  intro t ht
  unfold tabOK
  rw [stampViewed_selectedItem, setCursor_selectedItem]
  by_cases hts : t = s.selectedTab
  · rw [if_pos hts]
    subst hts
    exact hv ht
  · rw [if_neg hts]
    exact hinv t ht

/-- Helper: every `reactToInput` transition preserves the cursor
invariant, provided a move-item-down is only delivered while the
selected tab's item list is non-empty. -/
theorem cursorOK_input_step (s : State) (key : Input) (now : Nat) (s' : State)
    (effs : List Effect) (hinv : cursorOK s)
    (hguard : key = Input.down → (s.tabData s.selectedTab).items.length ≠ 0)
    (h : reactToInput s key now = some (s', effs)) : cursorOK s' := by
  cases key with
  | noKey =>
      simp only [reactToInput, Option.some.injEq, Prod.mk.injEq] at h
      rw [← h.1]
      exact hinv
  | quit =>
      simp only [reactToInput, Option.some.injEq, Prod.mk.injEq] at h
      rw [← h.1]
      exact cursorOK_stampViewed _ now hinv
  | left =>
      simp only [reactToInput] at h
      split at h
      · split at h
        · simp only [Option.some.injEq, Prod.mk.injEq] at h
          rw [← h.1]
          exact cursorOK_stampViewed _ now hinv
        · exact Option.noConfusion h
      · simp only [Option.some.injEq, Prod.mk.injEq] at h
        rw [← h.1]
        exact cursorOK_stampViewed _ now hinv
  | right =>
      simp only [reactToInput] at h
      split at h
      · split at h
        · simp only [Option.some.injEq, Prod.mk.injEq] at h
          rw [← h.1]
          exact cursorOK_stampViewed _ now hinv
        · exact Option.noConfusion h
      · simp only [Option.some.injEq, Prod.mk.injEq] at h
        rw [← h.1]
        exact cursorOK_stampViewed _ now hinv
  | activate =>
      simp only [reactToInput] at h
      split at h
      · simp only [Option.some.injEq, Prod.mk.injEq] at h
        rw [← h.1]
        exact cursorOK_stampViewed _ now hinv
      · exact Option.noConfusion h
  | jump n =>
      by_cases hn : 1 ≤ n ∧ n ≤ 4
      · simp only [reactToInput, if_pos hn] at h
        split at h
        · simp only [Option.some.injEq, Prod.mk.injEq] at h
          rw [← h.1]
          exact cursorOK_stampViewed _ now hinv
        · exact Option.noConfusion h
      · simp only [reactToInput, if_neg hn, Option.some.injEq, Prod.mk.injEq] at h
        rw [← h.1]
        exact hinv
  | up =>
      simp only [reactToInput, Option.some.injEq, Prod.mk.injEq] at h
      rw [← h.1]
      refine cursorOK_stamp_setCursor s _ now hinv ?_
      intro hmem
      have hbase := hinv s.selectedTab hmem
      unfold tabOK cursorInRange at hbase
      unfold cursorInRange
      omega
  | down =>
      simp only [reactToInput, Option.some.injEq, Prod.mk.injEq] at h
      rw [← h.1]
      refine cursorOK_stamp_setCursor s _ now hinv ?_
      intro hmem
      have hbase := hinv s.selectedTab hmem
      have hne := hguard rfl
      unfold tabOK cursorInRange at hbase
      unfold cursorInRange
      omega

/-- Helper: a poller snapshot replacement preserves the cursor
invariant, provided the new list keeps the tab's cursor strictly in
range or is empty while the cursor sits at 0. -/
theorem cursorOK_replace_step (s : State) (tab : String) (items : List Item) (now : Nat)
    (hinv : cursorOK s)
    (hguard : (s.tabDisplays tab).selectedItem < (items.length : Int)
      ∨ (items.length = 0 ∧ (s.tabDisplays tab).selectedItem = 0)) :
    cursorOK { s with
      tabData := Function.update s.tabData tab (updateTabData (s.tabData tab) items now) } := by
  intro t ht
  unfold tabOK
  by_cases hts : t = tab
  · subst hts
    show cursorInRange ((s.tabDisplays t).selectedItem)
      ((Function.update s.tabData t (updateTabData (s.tabData t) items now) t).items.length)
    rw [Function.update_same]
    have hbase := hinv t ht
    unfold tabOK cursorInRange at hbase
    unfold updateTabData
    split
    · show cursorInRange ((s.tabDisplays t).selectedItem) items.length
      unfold cursorInRange
      omega
    · exact hbase
  · show cursorInRange ((s.tabDisplays t).selectedItem)
      ((Function.update s.tabData tab (updateTabData (s.tabData tab) items now) t).items.length)
    rw [Function.update_noteq hts]
    exact hinv t ht

/-- An event of the shared-state system: one input-loop evaluation
(`reactToInput` with the pressed key and the frame time), or one per-tab
snapshot replacement by the poller (`updateData`'s per-tab body). -/
inductive Ev where
  | input (key : Input) (now : Nat)
  | replace (tab : String) (items : List Item) (now : Nat)
deriving Repr

/-- One event step of the shared-state system; `none` is a panic. -/
def evStep (s : State) : Ev → Option State
  | Ev.input key now => (reactToInput s key now).map Prod.fst
  | Ev.replace tab items now =>
      some { s with
        tabData := Function.update s.tabData tab (updateTabData (s.tabData tab) items now) }

/-- The guard the amended C3 needs: move-item-down only on a non-empty
selected tab, and replacements keep the replaced tab's cursor strictly
in range (or empty the list of a tab whose cursor is at 0). The
counterexamples below show the invariant fails without it. -/
def evOK (s : State) : Ev → Prop
  | Ev.input key _ => key = Input.down → (s.tabData s.selectedTab).items.length ≠ 0
  | Ev.replace tab items _ =>
      (s.tabDisplays tab).selectedItem < (items.length : Int)
      ∨ (items.length = 0 ∧ (s.tabDisplays tab).selectedItem = 0)

instance (s : State) : (e : Ev) → Decidable (evOK s e)
  | Ev.input key _ =>
      inferInstanceAs (Decidable (key = Input.down → (s.tabData s.selectedTab).items.length ≠ 0))
  | Ev.replace tab items _ =>
      inferInstanceAs (Decidable ((s.tabDisplays tab).selectedItem < (items.length : Int)
        ∨ (items.length = 0 ∧ (s.tabDisplays tab).selectedItem = 0)))

/-- Run a sequence of events; `none` as soon as any step panics. -/
def evRun (s : State) : List Ev → Option State
  | [] => some s
  | e :: rest =>
      match evStep s e with
      | none => none
      | some s' => evRun s' rest

/-- Every event of the sequence satisfies its guard in the state it is
applied to. -/
def guardedRun (s : State) : List Ev → Prop
  | [] => True
  | e :: rest => evOK s e ∧ ((evStep s e).elim True fun s' => guardedRun s' rest)

instance instDecGuardedRun : (evs : List Ev) → (s : State) → Decidable (guardedRun s evs)
  | [], _ => isTrue trivial
  | e :: rest, s =>
      have hd : Decidable ((evStep s e).elim True fun s' => guardedRun s' rest) :=
        match evStep s e with
        | none => isTrue trivial
        | some s' => instDecGuardedRun rest s'
      @instDecidableAnd _ _ inferInstance hd

/-- Helper: one guarded event preserves the cursor invariant. -/
theorem cursorOK_evStep (s : State) (e : Ev) (s' : State)
    (hinv : cursorOK s) (hok : evOK s e) (h : evStep s e = some s') : cursorOK s' := by
  cases e with
  | input key now =>
      simp only [evStep] at h
      cases hr : reactToInput s key now with
      | none =>
          rw [hr] at h
          exact Option.noConfusion h
      | some p =>
          obtain ⟨s₁, effs⟩ := p
          rw [hr] at h
          simp only [Option.map_some'] at h
          injection h with h1
          rw [← h1]
          exact cursorOK_input_step s key now s₁ effs hinv hok hr
  | replace tab items now =>
      simp only [evStep] at h
      injection h with h1
      rw [← h1]
      exact cursorOK_replace_step s tab items now hinv hok

/-- C3 (amended): for every tab, after any sequence of input events and
snapshot replacements in which move-item-down is only delivered while
the selected tab's list is non-empty and every replacement keeps the
replaced tab's cursor strictly within the new list (or empties the list
of a tab whose cursor is 0), every tab's `selectedItem` is a valid index
into that tab's current item list, or 0 when the list is empty. Without
the guard the invariant fails (see the counterexample). -/
theorem C3_guarded_cursor_invariant (s : State) (evs : List Ev) (s' : State)
    (h0 : cursorOK s) (hg : guardedRun s evs) (hrun : evRun s evs = some s') :
    cursorOK s' := by
  induction evs generalizing s with
  | nil =>
      unfold evRun at hrun
      injection hrun with h1
      rw [← h1]
      exact h0
  | cons e rest ih =>
      unfold guardedRun at hg
      obtain ⟨hok, hrest⟩ := hg
      unfold evRun at hrun
      cases hs : evStep s e with
      | none =>
          rw [hs] at hrun
          exact Option.noConfusion hrun
      | some s₁ =>
          rw [hs] at hrun
          have h1 : cursorOK s₁ := cursorOK_evStep s e s₁ h0 hok hs
          have hg1 : guardedRun s₁ rest := by
            rw [hs] at hrest
            exact hrest
          exact ih s₁ h1 hg1 hrun

/-- Counterexample to C3 as stated: in the startup state (which
satisfies the claimed invariant, all lists empty, all cursors 0), a
single move-item-down input sets the "PRs" cursor to
`min(len-1, 0+1) = min(-1, 1) = -1` — not a valid index and not 0 —
while the list is still empty. -/
theorem C3_counterexample :
    cursorOK startupState ∧
    "PRs" ∈ startupState.tabIDs ∧
    (evStep startupState (Ev.input Input.down 1)).map
        (fun s' => ((s'.tabDisplays "PRs").selectedItem, (s'.tabData "PRs").items.length))
      = some (-1, 0) := by
  decide

/-- A guarded run from startup: a fetch fills "PRs" with one item, then
two move-item-down inputs. -/
def c3Evs : List Ev :=
  [Ev.replace "PRs" [{ value := "slarwise/x: hi", url := "", application := "" }] 1,
    Ev.input Input.down 2, Ev.input Input.down 3]

/-- The state the guarded run ends in. -/
def c3Final : State := (evRun startupState c3Evs).getD startupState

/-- Witness for C3 (amended): the guarded run keeps every cursor a
valid index (or 0 on an empty list). -/
theorem C3_witness : cursorOK c3Final :=
  C3_guarded_cursor_invariant startupState c3Evs c3Final (by decide) (by decide) rfl

/-- `Issue` from `internal/github/client.go`: one record of the GitHub
issues endpoint. `pullRequestURL` is the nested `PullRequest.URL` field,
empty when the record is a real issue and non-empty when the endpoint
returned a pull request. -/
structure Issue where
  title : String
  htmlURL : String
  pullRequestURL : String
  createdAt : Nat
deriving DecidableEq, Repr

/-- `ListIssuesForRepo` from `internal/github/client.go`, as a function
of the decoded endpoint records: build `filteredIssues` by keeping the
records whose `pull_request.url` is empty, in endpoint order; the source
then sorts the ORIGINAL `issues` slice (whose backing array is disjoint
from `filteredIssues`, each element having been appended by value) and
returns `filteredIssues` — so the sort's result is discarded and the
returned list is the unsorted filter. -/
def listIssuesForRepo (issues : List Issue) : List Issue :=
  issues.filter fun issue => issue.pullRequestURL == ""

/-- Modelled from the spec's words: a list of issue records is
most-recent-first when successive creation timestamps never increase. -/
def mostRecentFirst : List Issue → Prop
  | [] => True
  | [_] => True
  | a :: b :: rest => b.createdAt ≤ a.createdAt ∧ mostRecentFirst (b :: rest)

instance instDecMostRecentFirst : (l : List Issue) → Decidable (mostRecentFirst l)
  | [] => isTrue trivial
  | [_] => isTrue trivial
  | _ :: b :: rest =>
      have hd : Decidable (mostRecentFirst (b :: rest)) := instDecMostRecentFirst (b :: rest)
      @instDecidableAnd _ _ inferInstance hd

/-- An old issue record (created at 1). -/
def issueOld : Issue := { title := "old", htmlURL := "uo", pullRequestURL := "", createdAt := 1 }

/-- A newer issue record (created at 2). -/
def issueNew : Issue := { title := "new", htmlURL := "un", pullRequestURL := "", createdAt := 2 }

/-- C5 fails on the issues adapter: with the endpoint returning the
older record first, `ListIssuesForRepo` returns the records in endpoint
order — oldest first, not most-recent-first — because the source sorts
the unfiltered slice and returns the unsorted filtered one, against its
own doc comment. -/
theorem C5_issues_not_sorted :
    listIssuesForRepo [issueOld, issueNew] = [issueOld, issueNew] ∧
    issueOld.createdAt < issueNew.createdAt ∧
    ¬ mostRecentFirst (listIssuesForRepo [issueOld, issueNew]) := by
  decide

/-- C10: `ListIssuesForRepo` includes a record of the issues endpoint in
its result if and only if the record's `pull_request.url` field is
empty — pull requests, which the issues endpoint also returns, are
excluded. -/
theorem C10_issue_included_iff_not_pr (issues : List Issue) (issue : Issue) :
    issue ∈ listIssuesForRepo issues ↔ (issue ∈ issues ∧ issue.pullRequestURL = "") := by
  unfold listIssuesForRepo
  simp [List.mem_filter]

end Daeshboard
